import Mathlib

/-!
Verification development for the QR laser-tag backend: a shallow embedding
of the match registry, the shot-resolution pipeline of
src/server/gameWebSocket.ts (the handleShotAttempt flow), the deposit
reconciliation over inventory and bins, and the QR decode variant race of
src/utils/garbage-detector.ts, together with theorems settling the frozen
claims about the system.

Numbers: JavaScript numeric scores (co2Savings, point awards) are modelled
as rationals; point arithmetic in the relevant ranges is exact.

Where a definition embeds a function that is absent from the source dump
(the final MatchManager's updatePlayerScore / startMatch / rejoinPlayer and
the shot handler's broadcastResult are only called and tested, never
defined), its doc comment starts with "Modelled from the spec:".
-/

namespace Game

/-- Match lifecycle states, from src/types/game.ts. -/
inductive MState
  | waiting
  | active
  | paused
  | ended
deriving DecidableEq, Repr

/-- Player connection states, from src/types/game.ts. -/
inductive PState
  | connected
  | disconnected
  | eliminated
deriving DecidableEq, Repr

/-- Player roles, from src/types/game.ts. -/
inductive Role
  | admin
  | player
deriving DecidableEq, Repr

/-- The four garbage (item) categories, from the GarbageType enum. -/
inductive GarbageType
  | foodScraps
  | mixedPaper
  | recyclable
  | landfill
deriving DecidableEq, Repr

/-- The five bin (container) categories, from the BinType enum. -/
inductive BinType
  | foodScrapsBin
  | mixedPaperBin
  | recyclableBin
  | landfillBin
  | unknownBin
deriving DecidableEq, Repr

/-- A detected collectible item, from the Garbage interface. -/
structure Garbage where
  itemName : String
  itemType : GarbageType
  co2Savings : ℚ
deriving DecidableEq, Repr

/-- A detected disposal container, from the Bin interface. -/
structure Bin where
  itemName : String
  itemType : BinType
deriving DecidableEq, Repr

/-- One append-only score-history record (ScoreEntry interface); only the
point delta matters for the ledger invariant. -/
structure ScoreEntry where
  points : ℚ
deriving DecidableEq, Repr

/-- Player record, from src/types/game.ts (Player interface). -/
structure Player where
  id : String
  name : String
  qrCode : String
  score : ℚ
  shots : ℕ
  pstate : PState
  role : Role
  inventory : List Garbage
  scoreHistory : List ScoreEntry
deriving DecidableEq, Repr

/-- Match aggregate, from src/types/game.ts. The JS Map of players is
modelled as an insertion-ordered list keyed by the id field (fresh random
ids are supplied as explicit parameters). The winScore field is modelled
from the spec (win-score threshold; 250 in GAME_END_EVENTS_SUMMARY.md);
the Match interface in the dump carries no such field because the final
MatchManager holding it is absent. -/
structure Match where
  id : String
  mstate : MState
  adminId : String
  winScore : ℚ
  players : List Player
deriving DecidableEq, Repr

/-- Domain events fanned out over the websocket, as built inline in
gameWebSocket.ts (item_redeemed, items_collected, game end events, shot
results, private error replies). -/
inductive Event
  | itemRedeemed (playerId : String) (item : Garbage) (points : ℚ)
  | itemsCollected (playerId : String) (items : List Garbage) (points : ℚ)
  | gameEnded (winnerId : String)
  | playerWon (playerId : String)
  | playerLost (playerId : String)
  | shotResult (shooterId : String) (targetId : String) (hit : Bool)
  | errorReply (message : String)
deriving DecidableEq, Repr

/-- Whether an event is a private error reply (StateError-style rejection). -/
def Event.isErrorReply : Event → Bool
  | .errorReply _ => true
  | _ => false

/-- Lower-case a string character by character; the kernel-reducible
counterpart of String.toLowerCase as used for name comparison. -/
def strLower (s : String) : String :=
  ⟨s.data.map Char.toLower⟩

/-- Strip leading and trailing whitespace; the kernel-reducible
counterpart of String.trim as applied to submitted names. -/
def strTrim (s : String) : String :=
  ⟨((s.data.dropWhile Char.isWhitespace).reverse.dropWhile
      Char.isWhitespace).reverse⟩

/-- Whether s starts with the given literal; the kernel-reducible
counterpart of String.startsWith. -/
def strStartsWith (s lit : String) : Bool :=
  s.data.take lit.data.length = lit.data

/-- Look a player up by id (Map.get on match.players). -/
def findPlayer (m : Match) (pid : String) : Option Player :=
  m.players.find? (fun p => p.id = pid)

/-- Replace the player record whose id matches (Map.set on an existing key). -/
def setPlayer (m : Match) (p' : Player) : Match :=
  { m with players := m.players.map (fun q => if q.id = p'.id then p' else q) }

/-- The QR token payload for a player, JSON.stringify of matchId and
playerId (the timestamp component is elided; no claim depends on it). -/
def mkQrCode (matchId pid : String) : String :=
  String.append (String.append matchId ":") pid

/-- A freshly created player record, as built in MatchManager.createMatch
and MatchManager.addPlayer (score 0, shots 0, connected, empty inventory
and history). -/
def newPlayer (matchId pid name : String) (role : Role) : Player :=
  { id := pid
    name := strTrim name
    qrCode := mkQrCode matchId pid
    score := 0
    shots := 0
    pstate := .connected
    role := role
    inventory := []
    scoreHistory := [] }

/-- MatchManager.createMatch: a new match in waiting state whose admin is
auto-joined as the first roster member. Fresh random ids are passed in. -/
def createMatch (adminName matchId adminId : String) : Match :=
  { id := matchId
    mstate := .waiting
    adminId := adminId
    winScore := 250
    players := [newPlayer matchId adminId adminName .admin] }

/-- Case-insensitive roster lookup by display name, as in the join route:
p.name.toLowerCase() compared against playerName.trim().toLowerCase(). -/
def findByName (m : Match) (name : String) : Option Player :=
  m.players.find? (fun p => strLower p.name = strLower (strTrim name))

/-- MatchManager.addPlayer for an unseen name: requires waiting state,
rejects duplicate names case-insensitively, appends a fresh player. -/
def addPlayer (m : Match) (name freshId : String) : Option (Match × Player) :=
  if m.mstate ≠ .waiting then none
  else if (findByName m name).isSome then none
  else
    let p := newPlayer m.id freshId name .player
    some ({ m with players := m.players ++ [p] }, p)

/-- Modelled from the spec: MatchManager.rejoinPlayer is called by the join
route but its definition is absent from the dump; per the spec an existing
name yields an idempotent rejoin returning the existing record unchanged. -/
def rejoinPlayer (m : Match) (name : String) : Option (Match × Player) :=
  (findByName m name).map (fun p => (m, p))

/-- The POST /api/match/:matchId/join route (src/routes/match.ts): an
existing case-insensitive name is a rejoin (no state requirement), an
unseen name goes through addPlayer. The Bool flags a rejoin. -/
def joinRoute (m : Match) (name freshId : String) : Match × Option (Player × Bool) :=
  match findByName m name with
  | some _ =>
    match rejoinPlayer m name with
    | some (m', p) => (m', some (p, true))
    | none => (m, none)
  | none =>
    match addPlayer m name freshId with
    | some (m', p) => (m', some (p, false))
    | none => (m, none)

/-- Zero a player's score, shots, inventory and score history while keeping
id, name, token, state and role, as the spec's restart reset requires. -/
def resetPlayer (p : Player) : Player :=
  { p with score := 0, shots := 0, inventory := [], scoreHistory := [] }

/-- Modelled from the spec: the final MatchManager.startMatch is absent
from the dump (the stale part_008 variant predates restart support, which
test-match-restart.ts and test-rejoin-and-restart.ts exercise). Per the
spec: requester must be the admin, the state must be waiting or ended, the
roster must have at least 2 players; the state becomes active, and a start
from ended first resets every player's score/shots/inventory/history.
none means failure with the match unchanged. -/
def startMatch (m : Match) (requesterId : String) : Option Match :=
  if requesterId ≠ m.adminId then none
  else if ¬(m.mstate = .waiting ∨ m.mstate = .ended) then none
  else if m.players.length < 2 then none
  else
    let ps := if m.mstate = .ended then m.players.map resetPlayer else m.players
    some { m with mstate := .active, players := ps }

/-- MatchManager.pauseMatch: admin only, active → paused. -/
def pauseMatch (m : Match) (requesterId : String) : Option Match :=
  if requesterId ≠ m.adminId then none
  else if m.mstate ≠ .active then none
  else some { m with mstate := .paused }

/-- MatchManager.resumeMatch: admin only, paused → active. -/
def resumeMatch (m : Match) (requesterId : String) : Option Match :=
  if requesterId ≠ m.adminId then none
  else if m.mstate ≠ .paused then none
  else some { m with mstate := .active }

/-- MatchManager.endMatch: admin only, any state but ended → ended. -/
def endMatch (m : Match) (requesterId : String) : Option Match :=
  if requesterId ≠ m.adminId then none
  else if m.mstate = .ended then none
  else some { m with mstate := .ended }

/-- MatchManager.removePlayer: deletes the roster entry with the given id
(Map.delete); returns whether anything was removed. No admin protection. -/
def removePlayer (m : Match) (pid : String) : Match × Bool :=
  if m.players.any (fun p => p.id = pid) then
    ({ m with players := m.players.filter (fun p => ¬ p.id = pid) }, true)
  else (m, false)

/-- Modelled from the spec: the final MatchManager.updatePlayerScore is
absent from the dump (the stale part_008 variant lacks the score-history
append and the win check that GAME_END_EVENTS_SUMMARY.md and spec section
4.4 describe). It adds the delta to the player's score, increments the
shot count, appends the matching ScoreEntry atomically, and runs the
win-threshold check: a score reaching winScore auto-ends the match.
An unknown player leaves the match unchanged. scoredPlayer is the
updated player record that mutation writes. -/
def scoredPlayer (p : Player) (delta : ℚ) : Player :=
  { p with
    score := p.score + delta
    shots := p.shots + 1
    scoreHistory := p.scoreHistory ++ [ScoreEntry.mk delta] }

/-- The score mutation itself: add the delta, bump the shot count, append
the matching ScoreEntry, then check the win threshold. -/
def updatePlayerScore (m : Match) (pid : String) (delta : ℚ) : Match :=
  match findPlayer m pid with
  | none => m
  | some p =>
    let p' := scoredPlayer p delta
    let m' := setPlayer m p'
    if m'.winScore ≤ p'.score then { m' with mstate := .ended } else m'

/-- checkAndBroadcastGameEnd (gameWebSocket.ts): when the match state is
ended, broadcast a game-ended event naming the triggering player as winner
plus one personal won/lost event per roster member; otherwise nothing. -/
def checkAndBroadcastGameEnd (m : Match) (pid : String) : List Event :=
  if m.mstate = .ended then
    Event.gameEnded pid ::
      m.players.map (fun p =>
        if p.id = pid then Event.playerWon p.id else Event.playerLost p.id)
  else []

/-- Outcome of scanning and JSON-parsing the shot image's QR content, as
branched on in handleShotAttempt: either the content parsed as JSON (with
the matchId and playerId fields optionally present and non-empty — JS
truthiness folds an empty-string field into absence), or it failed to
parse and is kept as the raw string. -/
inductive QrContent
  | json (matchIdField : Option String) (playerIdField : Option String)
  | raw (s : String)
deriving DecidableEq, Repr

/-- The target-extraction logic of handleShotAttempt (gameWebSocket.ts
lines 694-743): a parsed token with a playerId field yields that playerId
as target — the token's matchId field is only compared for a console
warning and never affects the result, which is why this definition takes
no matchId argument; an unparseable token is accepted as a raw target id
when it is longer than 10 characters and starts with "player_"; anything
else yields no target. -/
def extractTargetId : Option QrContent → Option String
  | none => none
  | some (.json _ (some pid)) => some pid
  | some (.json _ none) => none
  | some (.raw s) =>
    if 10 < s.length ∧ strStartsWith s "player_" then some s else none

/-- The classifier's reply, from the DetectionResult interface (confidence
and description carry no game effect and are elided). -/
structure DetectionResult where
  garbage : List Garbage
  bins : List Bin
deriving DecidableEq, Repr

/-- The bin-to-garbage category map hardcoded in handleShotAttempt:
four bin categories map to their item category, the unknown bin to none. -/
def binToGarbageMap : BinType → Option GarbageType
  | .foodScrapsBin => some .foodScraps
  | .mixedPaperBin => some .mixedPaper
  | .recyclableBin => some .recyclable
  | .landfillBin => some .landfill
  | .unknownBin => none

/-- The set of garbage categories supported by the present bins
(supportedTypes in handleShotAttempt), as a list with membership tests. -/
def supportedTypes (bins : List Bin) : List GarbageType :=
  bins.filterMap (fun b => binToGarbageMap b.itemType)

/-- Per-item award for a category-matched item: Math.max(15, co2 * 50),
written as a conditional so the kernel can evaluate it. -/
def itemScore (g : Garbage) : ℚ :=
  if g.co2Savings * 50 < 15 then 15 else g.co2Savings * 50

/-- Clear a player's inventory (the write half of
inventoryRepository.popPlayerInventory's transaction). -/
def clearInventory (m : Match) (pid : String) : Match :=
  match findPlayer m pid with
  | none => m
  | some p => setPlayer m { p with inventory := [] }

/-- Append items to a player's inventory
(inventoryRepository.addItemToInventory per item, append-only). -/
def appendInventory (m : Match) (pid : String) (items : List Garbage) : Match :=
  match findPlayer m pid with
  | none => m
  | some p => setPlayer m { p with inventory := p.inventory ++ items }

/-- The bins-present branch of handleShotAttempt (gameWebSocket.ts lines
770-936): pop the shooter's inventory, merge detected items before popped
ones, recycle every merged item whose category some present bin supports
(one redeemed event and max(15, co2*50) points each, in merged order),
give every remaining item a flat 20 points with a single collected event,
apply the summed delta through one updatePlayerScore call when positive,
then run the game-end check. Returns the new match, the events in
broadcast order, and the final working set — emptied explicitly by the
source (Current_garbage.length = 0) in both subbranches. -/
def depositStep (m : Match) (shooterId : String)
    (detected : List Garbage) (bins : List Bin) :
    Match × List Event × List Garbage :=
  let popped := ((findPlayer m shooterId).map Player.inventory).getD []
  let m1 := clearInventory m shooterId
  let merged := detected ++ popped
  let supported := supportedTypes bins
  let recycled :=
    if supported.isEmpty then []
    else merged.filter (fun g => supported.contains g.itemType)
  let remaining :=
    if supported.isEmpty then merged
    else merged.filter (fun g => !supported.contains g.itemType)
  let matchedPoints := (recycled.map itemScore).sum
  let defaultPoints : ℚ := 20 * remaining.length
  let total := matchedPoints + defaultPoints
  let redeemEvents :=
    recycled.map (fun g => Event.itemRedeemed shooterId g (itemScore g))
  let collectEvents :=
    if remaining.isEmpty then []
    else [Event.itemsCollected shooterId remaining defaultPoints]
  if 0 < total then
    let m2 := updatePlayerScore m1 shooterId total
    (m2, redeemEvents ++ collectEvents ++ checkAndBroadcastGameEnd m2 shooterId, [])
  else
    (m1, redeemEvents ++ collectEvents, [])

/-- Fixed hit award for a token shot (10 points, as in the shot handler). -/
def hitScore : ℚ := 10

/-- Modelled from the spec: broadcastResult (the final shot handler's
result function) is absent from the dump; only its callers and its
predecessor handleShotResult (part_007) are present. Per the spec and the
predecessor: a non-active match is rejected with a StateError reply; an
unknown shooter is an error; an unknown target resolves as a miss; a
token resolving to the shooter is never a hit (spec section 4.2) and is
resolved as a miss here; otherwise the shooter earns the fixed hit score
through updatePlayerScore, a hit result is broadcast, and the game-end
check runs. -/
def broadcastResult (m : Match) (shooterId targetId : String) :
    Match × List Event :=
  if m.mstate ≠ .active then (m, [Event.errorReply "Match is not active"])
  else
    match findPlayer m shooterId with
    | none => (m, [Event.errorReply "Shooter not found in match"])
    | some _ =>
      match findPlayer m targetId with
      | none => (m, [Event.shotResult shooterId "" false])
      | some _ =>
        if targetId = shooterId then (m, [Event.shotResult shooterId "" false])
        else
          let m' := updatePlayerScore m shooterId hitScore
          (m', Event.shotResult shooterId targetId true ::
               checkAndBroadcastGameEnd m' shooterId)

/-- The private error reply sent when the garbage detector throws. -/
def garbageErrorMsg : String :=
  "Garbage detection temporarily unavailable. Please try again later."

/-- One shot attempt's inputs: the shooter, the outcome of the QR scan on
the image, and the classifier's reply (error when the detector threw). -/
structure ShotInput where
  shooterId : String
  qr : Option QrContent
  detection : Except Unit DetectionResult
deriving Repr

/-- The classification fallback of handleShotAttempt (gameWebSocket.ts
lines 752-961): a classifier failure is caught and answered with a
private error reply; bins present run the deposit reconciliation; then
whatever remains in the working set is appended to the shooter's
inventory (after a deposit the working set is empty; with no bins it is
the detected items, added with no broadcast — note the source broadcasts
nothing at all when nothing is detected). -/
def classifyStep (m : Match) (inp : ShotInput) : Match × List Event :=
  match inp.detection with
  | .error _ => (m, [Event.errorReply garbageErrorMsg])
  | .ok det =>
    let step :=
      if det.bins.isEmpty then (m, [], det.garbage)
      else depositStep m inp.shooterId det.garbage det.bins
    if step.2.2.isEmpty then (step.1, step.2.1)
    else (appendInventory step.1 inp.shooterId step.2.2, step.2.1)

/-- handleShotAttempt (gameWebSocket.ts lines 684-975): an extracted
target goes to the result handler and returns early; everything else
falls to the classification step. -/
def handleShotAttempt (m : Match) (inp : ShotInput) : Match × List Event :=
  match extractTargetId inp.qr with
  | some targetId => broadcastResult m inp.shooterId targetId
  | none => classifyStep m inp

/-! The token-decode variant race of src/utils/garbage-detector.ts
(scanQRFromBase64, lines 449-522). Each preprocessing variant is modelled
by its decode outcome and a completion-order stamp; a variant that threw
or found nothing is an empty outcome (the code folds both into null). -/

/-- One decoded barcode candidate returned by the external decoder. -/
structure Barcode where
  text : String
  format : String
deriving DecidableEq, Repr

/-- scanBufferWithZXing's candidate selection: nothing when no barcode
decoded, else the first QRCode-format candidate, else the first candidate. -/
def pickBarcode (results : List Barcode) : Option String :=
  if results.isEmpty then none
  else
    match results.find? (fun b => b.format = "QRCode") with
    | some qr => some qr.text
    | none => results.head?.map Barcode.text

/-- One preprocessing variant's run: its decode outcome and the order
stamp at which its promise settled. -/
structure VariantRun where
  result : Option String
  finishTime : ℕ
deriving DecidableEq, Repr

/-- The three preprocessing variants launched concurrently (original,
grayscale+sharpen+normalize, high-contrast). -/
def strategyNames : List String :=
  ["original", "enhanced", "contrast"]

/-- The selection step of scanQRFromBase64: Promise.allSettled waits for
every variant, then the results are scanned in the fixed strategies-array
order and the first non-empty outcome wins — completion times play no
part. -/
def scanQRFromBase64 (runs : List VariantRun) : Option String :=
  (runs.find? (fun r => r.result.isSome)).bind VariantRun.result

/-- The selection the claim describes, stated from the spec's words for
comparison: among the variants that produced a payload, return the one
whose decode call completed first (minimal completion stamp). -/
def firstCompletedPick (runs : List VariantRun) : Option String :=
  ((runs.filter (fun r => r.result.isSome)).foldl
    (fun acc r =>
      match acc with
      | none => some r
      | some b => if r.finishTime < b.finishTime then some r else some b)
    none).bind VariantRun.result

/-! Concrete fixtures used by witnesses and counterexamples. -/

/-- Fixture: Alice's admin record in match m1. -/
def alice : Player := newPlayer "m1" "a1" "Alice" .admin

/-- Fixture: Bob's player record in match m1. -/
def bob : Player := newPlayer "m1" "b1" "Bob" .player

/-- Fixture: a waiting two-player match (admin Alice, player Bob),
as produced by createMatch followed by addPlayer. -/
def sampleWaiting : Match :=
  { id := "m1"
    mstate := .waiting
    adminId := "a1"
    winScore := 250
    players := [alice, bob] }

/-- Fixture: the same match once started. -/
def sampleActive : Match :=
  { sampleWaiting with mstate := .active }

/-- Fixture: the same match after it ended. -/
def sampleEnded : Match :=
  { sampleWaiting with mstate := .ended }

/-- Fixture: an ended match in which Bob had scored (restart material). -/
def sampleEndedScored : Match :=
  { sampleEnded with
    players := [alice,
      { bob with score := 25, shots := 2, scoreHistory := [ScoreEntry.mk 25] }] }

/-- Fixture: recyclable, recyclable and food-scraps items, the spec's
two-matched-one-unmatched inventory. -/
def invItems : List Garbage :=
  [⟨"bottle", .recyclable, 1⟩, ⟨"can", .recyclable, 0⟩, ⟨"apple", .foodScraps, 0⟩]

/-- Fixture: Bob holding that inventory in the active match. -/
def sampleInv : Match :=
  appendInventory sampleActive "b1" invItems

/-- Fixture: Bob's record with the inventory attached. -/
def bobInv : Player :=
  { bob with inventory := invItems }

/-- Fixture: recyclable and mixed-paper bins (categories A and B). -/
def depositDet : DetectionResult :=
  { garbage := [], bins := [⟨"blue bin", .recyclableBin⟩, ⟨"yellow bin", .mixedPaperBin⟩] }

/-- Fixture: a no-token deposit shot by Bob against those bins. -/
def depositInput : ShotInput :=
  { shooterId := "b1", qr := none, detection := .ok depositDet }

/-- Fixture: a shot by Bob whose token carries a foreign matchId yet
Alice's playerId. -/
def mismatchInput : ShotInput :=
  { shooterId := "b1"
    qr := some (.json (some "match_other") (some "a1"))
    detection := .ok { garbage := [], bins := [] } }

/-- Fixture: a no-token shot on which the classifier threw. -/
def errInput : ShotInput :=
  { shooterId := "b1", qr := none, detection := .error () }

/-- Fixture: a no-token shot classified as nothing at all. -/
def emptyInput : ShotInput :=
  { shooterId := "b1", qr := none, detection := .ok { garbage := [], bins := [] } }

/-- Fixture: a no-token deposit shot with one detected bottle and one
recyclable bin, used against the ended match. -/
def endedDepositInput : ShotInput :=
  { shooterId := "b1"
    qr := none
    detection := .ok { garbage := [⟨"bottle", .recyclable, 1⟩]
                       bins := [⟨"blue bin", .recyclableBin⟩] } }

/-- Fixture: a token shot naming Alice, fired after the match ended. -/
def endedTokenInput : ShotInput :=
  { shooterId := "b1"
    qr := some (.json (some "m1") (some "a1"))
    detection := .ok { garbage := [], bins := [] } }

/-! Derived abbreviations used in theorem statements about the deposit
reconciliation. -/

/-- The working set a deposit starts from: the items detected in the frame
followed by the shooter's popped inventory. -/
def mergedItems (det : List Garbage) (p : Player) : List Garbage :=
  det ++ p.inventory

/-- The merged items whose category some present bin's mapping supports. -/
def matchedItems (bins : List Bin) (l : List Garbage) : List Garbage :=
  l.filter (fun g => (supportedTypes bins).contains g.itemType)

/-- The merged items no present bin's mapping supports. -/
def unmatchedItems (bins : List Bin) (l : List Garbage) : List Garbage :=
  l.filter (fun g => !(supportedTypes bins).contains g.itemType)

/-- The aggregate deposit award: max(15, co2*50) per matched item plus a
flat 20 per unmatched item. -/
def depositTotal (bins : List Bin) (l : List Garbage) : ℚ :=
  ((matchedItems bins l).map itemScore).sum
    + 20 * ((unmatchedItems bins l).length : ℚ)

/-- The sum of the deltas recorded in a player's score history. -/
def histSum (p : Player) : ℚ :=
  (p.scoreHistory.map ScoreEntry.points).sum

/-- The audit-trail invariant for one player: the sum of the recorded
deltas equals the current score. -/
def ledgerOk (p : Player) : Prop :=
  histSum p = p.score

/-- The audit-trail invariant across a match's roster. -/
def matchLedgerOk (m : Match) : Prop :=
  ∀ p ∈ m.players, ledgerOk p

/-- The admin-membership invariant: the match's adminId references a
player present in the roster. -/
def adminPresent (m : Match) : Prop :=
  ∃ p ∈ m.players, p.id = m.adminId

/-! Helper lemmas. -/

theorem find?_map_ite (l : List Player) (p' : Player) :
    (l.map (fun q => if q.id = p'.id then p' else q)).find?
        (fun q => q.id = p'.id)
      = (l.find? (fun q => q.id = p'.id)).map (fun _ => p') := by
  induction l with
  | nil => rfl
  | cons q rest ih =>
    by_cases h : q.id = p'.id
    · simp [List.find?, h]
    · simp [List.find?, h, ih]

theorem findPlayer_setPlayer (m : Match) (pid : String) (p p' : Player)
    (hp : findPlayer m pid = some p) (hid : p'.id = pid) :
    findPlayer (setPlayer m p') pid = some p' := by
  have hpid : p.id = pid := by
    have := List.find?_some hp
    simpa using this
  unfold findPlayer setPlayer
  subst hid
  rw [find?_map_ite]
  unfold findPlayer at hp
  rw [hp]
  rfl

theorem findPlayer_id (m : Match) (pid : String) (p : Player)
    (hp : findPlayer m pid = some p) : p.id = pid := by
  have := List.find?_some hp
  simpa using this

theorem findPlayer_clearInventory (m : Match) (pid : String) (p : Player)
    (hp : findPlayer m pid = some p) :
    findPlayer (clearInventory m pid) pid = some { p with inventory := [] } := by
  unfold clearInventory
  rw [hp]
  exact findPlayer_setPlayer m pid p _ hp (findPlayer_id m pid p hp)

theorem findPlayer_mstate (m : Match) (s : MState) (pid : String) :
    findPlayer { m with mstate := s } pid = findPlayer m pid := rfl

theorem findPlayer_updatePlayerScore (m : Match) (pid : String) (d : ℚ)
    (p : Player) (hp : findPlayer m pid = some p) :
    findPlayer (updatePlayerScore m pid d) pid = some (scoredPlayer p d) := by
  have h := findPlayer_setPlayer m pid p (scoredPlayer p d)
    hp (findPlayer_id m pid p hp)
  simp only [updatePlayerScore, hp]
  split
  · exact h
  · exact h

theorem updatePlayerScore_winScore (m : Match) (pid : String) (d : ℚ) :
    (updatePlayerScore m pid d).winScore = m.winScore := by
  unfold updatePlayerScore
  cases h : findPlayer m pid with
  | none => rfl
  | some p =>
    simp only
    split <;> rfl

theorem updatePlayerScore_threshold (m : Match) (pid : String) (d : ℚ)
    (p : Player) (hp : findPlayer m pid = some p)
    (hw : m.winScore ≤ p.score + d) :
    (updatePlayerScore m pid d).mstate = .ended := by
  simp only [updatePlayerScore, hp]
  split
  next => rfl
  next hnot =>
    exfalso
    apply hnot
    simpa [scoredPlayer, setPlayer] using hw

theorem itemScore_ge (g : Garbage) : 15 ≤ itemScore g := by
  unfold itemScore
  split
  next => exact le_refl 15
  next h => exact not_lt.mp h

theorem itemScore_pos (g : Garbage) : 0 < itemScore g := by
  have := itemScore_ge g
  linarith

theorem depositTotal_pos (bins : List Bin) (l : List Garbage) (hl : l ≠ []) :
    0 < depositTotal bins l := by
  unfold depositTotal
  have hsum : 0 ≤ ((matchedItems bins l).map itemScore).sum :=
    List.sum_nonneg (by
      intro x hx
      rcases List.mem_map.mp hx with ⟨g, _, hg⟩
      exact hg ▸ le_of_lt (itemScore_pos g))
  by_cases hu : unmatchedItems bins l = []
  · have hall : ∀ g ∈ l, (supportedTypes bins).contains g.itemType := by
      intro g hg
      have := List.filter_eq_nil.mp hu g hg
      simpa using this
    have hm : matchedItems bins l = l := List.filter_eq_self.mpr (by
      intro g hg
      simpa using hall g hg)
    have hpos : 0 < ((matchedItems bins l).map itemScore).sum := by
      apply List.sum_pos
      · intro x hx
        rcases List.mem_map.mp hx with ⟨g, _, hg⟩
        exact hg ▸ itemScore_pos g
      · simpa [hm] using fun h => hl (by simpa [h] using congrArg id h)
    have h2 : (0 : ℚ) ≤ 20 * ((unmatchedItems bins l).length : ℚ) := by positivity
    linarith
  · have hlen : 0 < ((unmatchedItems bins l).length : ℚ) := by
      have := List.length_pos.mpr hu
      exact_mod_cast this
    nlinarith

theorem depositStep_spec (m : Match) (sid : String) (det : List Garbage)
    (bins : List Bin) (p : Player) (hp : findPlayer m sid = some p) :
    (depositStep m sid det bins).2.2 = []
    ∧ (depositStep m sid det bins).1
        = (if 0 < depositTotal bins (det ++ p.inventory) then
            updatePlayerScore (clearInventory m sid) sid
              (depositTotal bins (det ++ p.inventory))
          else clearInventory m sid)
    ∧ (depositStep m sid det bins).2.1
        = (matchedItems bins (det ++ p.inventory)).map
            (fun g => Event.itemRedeemed sid g (itemScore g))
          ++ (if (unmatchedItems bins (det ++ p.inventory)).isEmpty then []
              else [Event.itemsCollected sid
                      (unmatchedItems bins (det ++ p.inventory))
                      (20 * ((unmatchedItems bins (det ++ p.inventory)).length : ℚ))])
          ++ (if 0 < depositTotal bins (det ++ p.inventory) then
                checkAndBroadcastGameEnd
                  (updatePlayerScore (clearInventory m sid) sid
                    (depositTotal bins (det ++ p.inventory))) sid
              else []) := by
  by_cases hsupp : supportedTypes bins = []
  · simp only [depositStep, hp, Option.map_some, Option.map_some', Option.getD_some, hsupp,
      List.isEmpty_nil, if_true, depositTotal, matchedItems, unmatchedItems,
      hsupp, List.contains_nil, List.filter_false, Bool.not_false,
      List.filter_true, List.map_nil, List.sum_nil, List.nil_append, zero_add]
    refine ⟨by split <;> rfl, by split <;> rfl, by split <;> simp⟩
  · have hne : (supportedTypes bins).isEmpty = false := by
      simpa [List.isEmpty_iff] using hsupp
    simp only [depositStep, hp, Option.map_some, Option.map_some', Option.getD_some, hne,
      Bool.false_eq_true, if_false, depositTotal, matchedItems, unmatchedItems]
    refine ⟨by split <;> rfl, by split <;> rfl, by split <;> simp⟩

theorem checkEnd_events_no_error (m : Match) (pid : String) :
    ∀ e ∈ checkAndBroadcastGameEnd m pid, e.isErrorReply = false := by
  intro e he
  unfold checkAndBroadcastGameEnd at he
  split at he
  · rcases List.mem_cons.mp he with h | h
    · subst h
      rfl
    · rcases List.mem_map.mp h with ⟨q, _, hq⟩
      subst hq
      split <;> rfl
  · simp at he

theorem depositStep_events_no_error (m : Match) (sid : String)
    (det : List Garbage) (bins : List Bin) (p : Player)
    (hp : findPlayer m sid = some p) :
    ∀ e ∈ (depositStep m sid det bins).2.1, e.isErrorReply = false := by
  have h := (depositStep_spec m sid det bins p hp).2.2
  intro e he
  rw [h] at he
  rcases List.mem_append.mp he with h1 | h1
  · rcases List.mem_append.mp h1 with h2 | h2
    · rcases List.mem_map.mp h2 with ⟨g, _, hg⟩
      subst hg
      rfl
    · split at h2
      · simp at h2
      · rcases List.mem_singleton.mp h2 with rfl
        rfl
  · split at h1
    · exact checkEnd_events_no_error _ sid e h1
    · simp at h1

theorem classifyStep_events_no_error (m : Match) (inp : ShotInput)
    (det : DetectionResult) (p : Player) (hdet : inp.detection = .ok det)
    (hp : findPlayer m inp.shooterId = some p) :
    ∀ e ∈ (classifyStep m inp).2, e.isErrorReply = false := by
  intro e he
  cases hbe : det.bins.isEmpty with
  | true =>
    simp [classifyStep, hdet, hbe] at he
    split at he <;> simp at he
  | false =>
    simp only [classifyStep, hdet, hbe, Bool.false_eq_true, if_false] at he
    split at he
    · exact depositStep_events_no_error m inp.shooterId det.garbage det.bins p hp e he
    · exact depositStep_events_no_error m inp.shooterId det.garbage det.bins p hp e he

theorem startMatch_some_elim {m : Match} {r : String} {m' : Match}
    (hs : startMatch m r = some m') :
    m'.id = m.id ∧ m'.adminId = m.adminId ∧ m'.winScore = m.winScore
    ∧ m'.mstate = .active
    ∧ ((m.mstate = .ended ∧ m'.players = m.players.map resetPlayer)
       ∨ (m.mstate ≠ .ended ∧ m'.players = m.players)) := by
  simp only [startMatch] at hs
  split_ifs at hs with h1 h2 h3 h4 <;> try exact Option.noConfusion hs
  all_goals rcases Option.some.inj hs with rfl
  all_goals refine ⟨rfl, rfl, rfl, rfl, ?_⟩
  all_goals first
    | exact Or.inl ⟨by assumption, rfl⟩
    | exact Or.inr ⟨by assumption, rfl⟩

/-! Theorems settling the claims. -/

/-- Claim C9, counterexample: with the first variant (in strategies-array
order) settling last at stamp 10 and the second variant settling first at
stamp 1, both with payloads, the code returns the first variant's payload
"A" while the claimed completion-order selection would return "B" — the
selection follows fixed variant priority, not completion order. -/
theorem c9_counterexample :
    scanQRFromBase64 [⟨some "A", 10⟩, ⟨some "B", 1⟩] = some "A"
    ∧ firstCompletedPick [⟨some "A", 10⟩, ⟨some "B", 1⟩] = some "B"
    ∧ (some "A" : Option String) ≠ some "B" := by
  refine ⟨by decide, by decide, by decide⟩

/-- Claim C9, amended: the decode launches its three preprocessing
variants concurrently but waits for all of them to settle and returns the
first non-empty result in fixed variant order — the completion stamps
play no part in the selection; not-found is returned exactly when every
variant comes back empty; the QR-specific format is preferred among the
candidates decoded within one variant (the first QRCode-format candidate
wins, else the first candidate of any format). -/
theorem c9_variant_order_selection :
    strategyNames.length = 3
    ∧ (∀ (runs : List VariantRun) (f : VariantRun → ℕ),
        scanQRFromBase64 (runs.map (fun r => { r with finishTime := f r }))
          = scanQRFromBase64 runs)
    ∧ (∀ runs : List VariantRun,
        (scanQRFromBase64 runs = none ↔ ∀ r ∈ runs, r.result = none))
    ∧ (∀ (results : List Barcode) (b : Barcode),
        results.find? (fun c => c.format = "QRCode") = some b →
        pickBarcode results = some b.text)
    ∧ (∀ results : List Barcode,
        results ≠ [] →
        results.find? (fun c => c.format = "QRCode") = none →
        pickBarcode results = results.head?.map Barcode.text) := by
  refine ⟨rfl, ?_, ?_, ?_, ?_⟩
  · intro runs f
    induction runs with
    | nil => rfl
    | cons r rest ih =>
      cases hr : r.result with
      | none => simpa [scanQRFromBase64, List.find?, hr] using ih
      | some v => simp [scanQRFromBase64, List.find?, hr]
  · intro runs
    induction runs with
    | nil => simp [scanQRFromBase64]
    | cons r rest ih =>
      cases hr : r.result with
      | none =>
        simp only [scanQRFromBase64, List.find?, hr, Option.isSome_none,
          Bool.false_eq_true, List.mem_cons] at ih ⊢
        constructor
        · intro h q hq
          cases hq with
          | inl h' => simp [h', hr]
          | inr h' => exact ih.mp h q h'
        · intro h
          exact ih.mpr (fun q hq => h q (Or.inr hq))
      | some v =>
        simp [scanQRFromBase64, List.find?, hr]
  · intro results b hb
    have hne : results ≠ [] := by
      intro h
      rw [h] at hb
      simp [List.find?] at hb
    simp [pickBarcode, hb, hne]
  · intro results hne hnone
    simp [pickBarcode, hnone, hne]

/-- Claim C1, counterexample: shooter Bob presents a token whose matchId
field "match_other" differs from the match id "m1" but whose playerId is
live roster member Alice; the claim says this falls through to scene
classification (which here would broadcast nothing), yet the pipeline
dispatches it to the result handler and resolves it as a hit on Alice —
the matchId mismatch is only logged by the source, never enforced. -/
theorem c1_counterexample :
    (handleShotAttempt sampleActive mismatchInput).2
        = [Event.shotResult "b1" "a1" true]
    ∧ ("match_other" : String) ≠ sampleActive.id := by
  constructor
  · norm_num +decide [handleShotAttempt, mismatchInput, extractTargetId,
      broadcastResult, sampleActive, sampleWaiting, alice, bob, newPlayer,
      strTrim, mkQrCode, findPlayer, setPlayer, updatePlayerScore, scoredPlayer, hitScore,
      checkAndBroadcastGameEnd]
  · decide

/-- Claim C1, amended: the pipeline falls through to scene classification
exactly when no target id is extracted from the image (no token, a parsed
token without a playerId field, or an unparseable token that is not a
"player_"-prefixed string longer than 10 characters); a decoded playerId
is dispatched to the result handler even when the token's matchId field
differs from the shot's match (the mismatch is only logged), so the
match-equality, live-roster and self-target requirements are not enforced
at this boundary. -/
theorem c1_token_dispatch (m : Match) (inp : ShotInput) :
    (extractTargetId inp.qr = none →
      handleShotAttempt m inp = classifyStep m inp)
    ∧ (∀ t, extractTargetId inp.qr = some t →
      handleShotAttempt m inp = broadcastResult m inp.shooterId t)
    ∧ (∀ (mf : Option String) (pid : String),
      extractTargetId (some (.json mf (some pid))) = some pid) := by
  refine ⟨?_, ?_, ?_⟩
  · intro h
    simp [handleShotAttempt, h]
  · intro t h
    simp [handleShotAttempt, h]
  · intro mf pid
    rfl

/-- Claim C1 witness: the dispatch characterization applied to the active
fixture and the mismatched-match token. -/
theorem c1_witness :
    handleShotAttempt sampleActive mismatchInput
      = broadcastResult sampleActive "b1" "a1" :=
  (c1_token_dispatch sampleActive mismatchInput).2.1 "a1" (by decide)

/-- Claim C4, counterexample: on the active fixture a classifier failure
makes the pipeline reply with a private error frame, while an empty
classification result produces no events at all — the failure is not
absorbed as "nothing detected" but surfaced as an error reply. -/
theorem c4_counterexample :
    handleShotAttempt sampleActive errInput
      = (sampleActive, [Event.errorReply garbageErrorMsg])
    ∧ handleShotAttempt sampleActive emptyInput = (sampleActive, [])
    ∧ [Event.errorReply garbageErrorMsg] ≠ ([] : List Event) := by
  refine ⟨rfl, ?_, by decide⟩
  norm_num +decide [handleShotAttempt, emptyInput, extractTargetId, classifyStep]

/-- Claim C4, amended: whenever the scene classifier fails or throws
during a no-token shot's resolution, the pipeline catches the failure and
sends a private error reply to the shooter ("Garbage detection temporarily
unavailable. Please try again later."), mutating no state and broadcasting
nothing else; the exception is not rethrown to the caller, but the shot
resolves with an error reply rather than being treated as an empty
classification result. -/
theorem c4_classifier_error_reply (m : Match) (inp : ShotInput)
    (hqr : extractTargetId inp.qr = none)
    (herr : inp.detection = .error ()) :
    handleShotAttempt m inp = (m, [Event.errorReply garbageErrorMsg]) := by
  simp [handleShotAttempt, hqr, classifyStep, herr]

/-- Claim C4 witness: the error-reply behaviour at the concrete failing
classifier input. -/
theorem c4_witness :
    handleShotAttempt sampleActive errInput
      = (sampleActive, [Event.errorReply garbageErrorMsg]) :=
  c4_classifier_error_reply sampleActive errInput (by decide) rfl

/-- Claim C7, counterexample: a shot with no token and an empty
classification result produces no broadcast whatsoever — in particular no
hit=false shot-result event — and leaves the match untouched; the claimed
miss broadcast does not exist in the code. -/
theorem c7_counterexample :
    handleShotAttempt sampleActive emptyInput = (sampleActive, [])
    ∧ ∀ s t h, Event.shotResult s t h ∉ (handleShotAttempt sampleActive emptyInput).2 := by
  have he : handleShotAttempt sampleActive emptyInput = (sampleActive, []) := by
    norm_num +decide [handleShotAttempt, emptyInput, extractTargetId, classifyStep]
  refine ⟨he, ?_⟩
  intro s t h
  rw [he]
  simp

/-- Claim C7, amended: a shot whose image yields no token and whose
classification yields zero containers and zero items resolves silently:
no event is broadcast (so no hit=false result either) and no player state
is mutated. -/
theorem c7_silent_empty_shot (m : Match) (inp : ShotInput)
    (hqr : extractTargetId inp.qr = none)
    (hdet : inp.detection = .ok { garbage := [], bins := [] }) :
    handleShotAttempt m inp = (m, []) := by
  simp [handleShotAttempt, hqr, classifyStep, hdet]

/-- Claim C7 witness: the silent resolution at the concrete empty input. -/
theorem c7_witness :
    handleShotAttempt sampleActive emptyInput = (sampleActive, []) :=
  c7_silent_empty_shot sampleActive emptyInput (by decide) rfl

/-- Claim C2, confirmed: for every deposit shot (no token extracted, at
least one container classified) against a shooter on the roster, the
shooter's inventory is popped and merged after the frame's detected items;
every merged item whose category some present bin's mapping supports earns
max(15, co2*50) with one redeemed event each, every remaining item earns a
flat 20 inside a single collected event, the summed delta is applied
through exactly one score update (one appended ScoreEntry), and the
shooter's inventory afterwards is empty — nothing returns to it. -/
theorem c2_deposit_reconciliation (m : Match) (inp : ShotInput)
    (det : DetectionResult) (p : Player)
    (hqr : extractTargetId inp.qr = none)
    (hdet : inp.detection = .ok det)
    (hbins : det.bins ≠ [])
    (hp : findPlayer m inp.shooterId = some p) :
    (findPlayer (handleShotAttempt m inp).1 inp.shooterId).map Player.inventory
        = some []
    ∧ (mergedItems det.garbage p ≠ [] →
        findPlayer (handleShotAttempt m inp).1 inp.shooterId
          = some (scoredPlayer { p with inventory := [] }
              (depositTotal det.bins (mergedItems det.garbage p))))
    ∧ (handleShotAttempt m inp).2
        = (matchedItems det.bins (mergedItems det.garbage p)).map
            (fun g => Event.itemRedeemed inp.shooterId g (itemScore g))
          ++ (if (unmatchedItems det.bins (mergedItems det.garbage p)).isEmpty then []
              else [Event.itemsCollected inp.shooterId
                      (unmatchedItems det.bins (mergedItems det.garbage p))
                      (20 * ((unmatchedItems det.bins (mergedItems det.garbage p)).length : ℚ))])
          ++ (if 0 < depositTotal det.bins (mergedItems det.garbage p) then
                checkAndBroadcastGameEnd (handleShotAttempt m inp).1 inp.shooterId
              else []) := by
  have hbe : det.bins.isEmpty = false := by
    simpa [List.isEmpty_iff] using hbins
  have hstep := depositStep_spec m inp.shooterId det.garbage det.bins p hp
  have hha : handleShotAttempt m inp
      = ((depositStep m inp.shooterId det.garbage det.bins).1,
         (depositStep m inp.shooterId det.garbage det.bins).2.1) := by
    simp [handleShotAttempt, hqr, classifyStep, hdet, hbe, hstep.1]
  have hmerged : mergedItems det.garbage p = det.garbage ++ p.inventory := rfl
  have hclear := findPlayer_clearInventory m inp.shooterId p hp
  have hupd := findPlayer_updatePlayerScore (clearInventory m inp.shooterId)
    inp.shooterId (depositTotal det.bins (det.garbage ++ p.inventory))
    { p with inventory := [] } hclear
  have hout1 : (handleShotAttempt m inp).1
      = (if 0 < depositTotal det.bins (det.garbage ++ p.inventory) then
          updatePlayerScore (clearInventory m inp.shooterId) inp.shooterId
            (depositTotal det.bins (det.garbage ++ p.inventory))
        else clearInventory m inp.shooterId) := by
    rw [hha]
    exact hstep.2.1
  have hout2 : (handleShotAttempt m inp).2
      = (matchedItems det.bins (det.garbage ++ p.inventory)).map
          (fun g => Event.itemRedeemed inp.shooterId g (itemScore g))
        ++ (if (unmatchedItems det.bins (det.garbage ++ p.inventory)).isEmpty then []
            else [Event.itemsCollected inp.shooterId
                    (unmatchedItems det.bins (det.garbage ++ p.inventory))
                    (20 * ((unmatchedItems det.bins (det.garbage ++ p.inventory)).length : ℚ))])
        ++ (if 0 < depositTotal det.bins (det.garbage ++ p.inventory) then
              checkAndBroadcastGameEnd
                (updatePlayerScore (clearInventory m inp.shooterId) inp.shooterId
                  (depositTotal det.bins (det.garbage ++ p.inventory)))
                inp.shooterId
            else []) := by
    rw [hha]
    exact hstep.2.2
  refine ⟨?_, ?_, ?_⟩
  · rw [hout1]
    by_cases hT : 0 < depositTotal det.bins (det.garbage ++ p.inventory)
    · rw [if_pos hT, hupd]
      simp [scoredPlayer]
    · rw [if_neg hT, hclear]
      rfl
  · intro hne
    rw [hmerged] at hne ⊢
    have hT : 0 < depositTotal det.bins (det.garbage ++ p.inventory) :=
      depositTotal_pos det.bins (det.garbage ++ p.inventory) hne
    rw [hout1, if_pos hT]
    exact hupd
  · rw [hmerged, hout2, hout1]
    by_cases hT : 0 < depositTotal det.bins (det.garbage ++ p.inventory)
    · simp only [if_pos hT]
    · simp only [if_neg hT]

/-- Claim C2 witness: the spec's own example — bins covering categories
recyclable and mixed-paper, Bob's inventory holding recyclable, recyclable
and food-scraps items — both recyclable items earn matched-category points
(50 and 15), the food item earns the flat 20, the single score update adds
85, and Bob's post-reconciliation inventory is empty. -/
theorem c2_witness :
    (findPlayer (handleShotAttempt sampleInv depositInput).1 "b1").map
        Player.inventory = some []
    ∧ (findPlayer (handleShotAttempt sampleInv depositInput).1 "b1").map
        Player.score = some 85 := by
  have h := c2_deposit_reconciliation sampleInv depositInput depositDet bobInv
    (by decide) rfl (by decide)
    (by decide)
  refine ⟨h.1, ?_⟩
  have h2 := h.2.1 (by decide)
  have hsid : depositInput.shooterId = "b1" := rfl
  rw [hsid] at h2
  rw [h2]
  norm_num +decide [scoredPlayer, bobInv, bob, newPlayer, depositTotal,
    matchedItems, unmatchedItems, mergedItems, depositDet, invItems,
    supportedTypes, binToGarbageMap, itemScore]

/-- Claim C3, counterexample: on the ended fixture match a subsequent
no-token deposit shot (one bottle, one matching bin) is not rejected with
a StateError — the classification pipeline still runs, broadcasts
non-error events (an item redemption and the game-end fan-out), and never
sends an error reply to the shooter. -/
theorem c3_counterexample :
    sampleEnded.mstate = .ended
    ∧ (handleShotAttempt sampleEnded endedDepositInput).2 ≠ []
    ∧ (handleShotAttempt sampleEnded endedDepositInput).2.all
        (fun e => !e.isErrorReply) = true := by
  refine ⟨rfl, ?_, ?_⟩ <;>
    norm_num +decide [handleShotAttempt, endedDepositInput, extractTargetId,
      classifyStep, depositStep, supportedTypes, binToGarbageMap, itemScore,
      sampleEnded, sampleWaiting, alice, bob, newPlayer, strTrim, mkQrCode,
      findPlayer, setPlayer, clearInventory, updatePlayerScore, scoredPlayer,
      checkAndBroadcastGameEnd, Event.isErrorReply]

/-- Claim C3, amended: a score mutation that brings the shooter's score to
the win threshold auto-ends the match; on an ended match the game-end
check emits the game-ended event and one personal won/lost event per
roster member (won for the triggering shooter, lost for everyone else);
a subsequent token shot is rejected with a "Match is not active" error
reply; but a subsequent no-token shot is NOT rejected — its classification
pipeline still runs and none of its events is an error reply. -/
theorem c3_win_threshold_flow :
    (∀ (m : Match) (pid : String) (d : ℚ) (p : Player),
        findPlayer m pid = some p → m.winScore ≤ p.score + d →
        (updatePlayerScore m pid d).mstate = .ended)
    ∧ (∀ (m : Match) (pid : String), m.mstate = .ended →
        Event.gameEnded pid ∈ checkAndBroadcastGameEnd m pid
        ∧ ∀ p ∈ m.players,
            (if p.id = pid then Event.playerWon p.id else Event.playerLost p.id)
              ∈ checkAndBroadcastGameEnd m pid)
    ∧ (∀ (m : Match) (inp : ShotInput) (t : String),
        m.mstate ≠ .active → extractTargetId inp.qr = some t →
        handleShotAttempt m inp = (m, [Event.errorReply "Match is not active"]))
    ∧ (∀ (m : Match) (inp : ShotInput) (det : DetectionResult) (p : Player),
        extractTargetId inp.qr = none → inp.detection = .ok det →
        findPlayer m inp.shooterId = some p →
        ∀ e ∈ (handleShotAttempt m inp).2, e.isErrorReply = false) := by
  refine ⟨?_, ?_, ?_, ?_⟩
  · intro m pid d p hp hw
    exact updatePlayerScore_threshold m pid d p hp hw
  · intro m pid hm
    unfold checkAndBroadcastGameEnd
    rw [if_pos hm]
    refine ⟨List.mem_cons_self _ _, ?_⟩
    intro p hp
    exact List.mem_cons_of_mem _ (List.mem_map.mpr ⟨p, hp, rfl⟩)
  · intro m inp t hm ht
    have hd : handleShotAttempt m inp = broadcastResult m inp.shooterId t := by
      simp [handleShotAttempt, ht]
    rw [hd]
    unfold broadcastResult
    rw [if_pos hm]
  · intro m inp det p hqr hdet hp e he
    have hd : handleShotAttempt m inp = classifyStep m inp := by
      simp [handleShotAttempt, hqr]
    rw [hd] at he
    exact classifyStep_events_no_error m inp det p hdet hp e he

/-- Claim C3 witness: Bob's score mutation of +250 on the active fixture
ends the match, and a token shot on the ended fixture is rejected with the
not-active error reply. -/
theorem c3_witness :
    (updatePlayerScore sampleActive "b1" 250).mstate = .ended
    ∧ handleShotAttempt sampleEnded endedTokenInput
        = (sampleEnded, [Event.errorReply "Match is not active"]) := by
  refine ⟨c3_win_threshold_flow.1 sampleActive "b1" 250 bob (by decide) ?_,
    c3_win_threshold_flow.2.2.1 sampleEnded endedTokenInput "a1"
      (by decide) (by decide)⟩
  norm_num +decide [sampleActive, sampleWaiting, bob, newPlayer]

theorem ledgerOk_scoredPlayer (p : Player) (d : ℚ) (h : ledgerOk p) :
    ledgerOk (scoredPlayer p d) := by
  simp only [ledgerOk, histSum, scoredPlayer, List.map_append, List.sum_append,
    List.map_cons, List.map_nil, List.sum_cons, List.sum_nil] at h ⊢
  rw [h]
  ring

theorem ledgerOk_newPlayer (matchId pid name : String) (role : Role) :
    ledgerOk (newPlayer matchId pid name role) := by
  simp [ledgerOk, histSum, newPlayer]

theorem ledgerOk_resetPlayer (p : Player) : ledgerOk (resetPlayer p) := by
  simp [ledgerOk, histSum, resetPlayer]

theorem matchLedgerOk_setPlayer (m : Match) (p' : Player)
    (h : matchLedgerOk m) (hp' : ledgerOk p') :
    matchLedgerOk (setPlayer m p') := by
  intro q hq
  rcases List.mem_map.mp hq with ⟨q0, hq0, hq0e⟩
  by_cases hid : q0.id = p'.id
  · rw [← hq0e, if_pos hid]
    exact hp'
  · rw [← hq0e, if_neg hid]
    exact h q0 hq0

theorem matchLedgerOk_updatePlayerScore (m : Match) (pid : String) (d : ℚ)
    (h : matchLedgerOk m) : matchLedgerOk (updatePlayerScore m pid d) := by
  simp only [updatePlayerScore]
  cases hp : findPlayer m pid with
  | none => exact h
  | some p =>
    have hmem : p ∈ m.players := List.mem_of_find?_eq_some hp
    have hok := ledgerOk_scoredPlayer p d (h p hmem)
    have hset := matchLedgerOk_setPlayer m (scoredPlayer p d) h hok
    simp only
    split
    · exact hset
    · exact hset

theorem matchLedgerOk_clearInventory (m : Match) (pid : String)
    (h : matchLedgerOk m) : matchLedgerOk (clearInventory m pid) := by
  simp only [clearInventory]
  cases hp : findPlayer m pid with
  | none => exact h
  | some p =>
    have hmem : p ∈ m.players := List.mem_of_find?_eq_some hp
    refine matchLedgerOk_setPlayer m _ h ?_
    have := h p hmem
    simpa [ledgerOk, histSum] using this

theorem matchLedgerOk_appendInventory (m : Match) (pid : String)
    (items : List Garbage) (h : matchLedgerOk m) :
    matchLedgerOk (appendInventory m pid items) := by
  simp only [appendInventory]
  cases hp : findPlayer m pid with
  | none => exact h
  | some p =>
    have hmem : p ∈ m.players := List.mem_of_find?_eq_some hp
    refine matchLedgerOk_setPlayer m _ h ?_
    have := h p hmem
    simpa [ledgerOk, histSum] using this

theorem matchLedgerOk_depositStep (m : Match) (sid : String)
    (det : List Garbage) (bins : List Bin) (h : matchLedgerOk m) :
    matchLedgerOk (depositStep m sid det bins).1 := by
  simp only [depositStep]
  repeat' split
  all_goals first
    | exact matchLedgerOk_updatePlayerScore _ _ _
        (matchLedgerOk_clearInventory _ _ h)
    | exact matchLedgerOk_clearInventory _ _ h

theorem matchLedgerOk_classifyStep (m : Match) (inp : ShotInput)
    (h : matchLedgerOk m) : matchLedgerOk (classifyStep m inp).1 := by
  simp only [classifyStep]
  cases inp.detection with
  | error e => exact h
  | ok det =>
    simp only
    split
    · split
      · exact h
      · exact matchLedgerOk_appendInventory _ _ _ h
    · split
      · exact matchLedgerOk_depositStep _ _ _ _ h
      · exact matchLedgerOk_appendInventory _ _ _
          (matchLedgerOk_depositStep _ _ _ _ h)

theorem matchLedgerOk_broadcastResult (m : Match) (sid tid : String)
    (h : matchLedgerOk m) : matchLedgerOk (broadcastResult m sid tid).1 := by
  simp only [broadcastResult]
  split
  · exact h
  · cases findPlayer m sid with
    | none => exact h
    | some _ =>
      simp only
      cases findPlayer m tid with
      | none => exact h
      | some _ =>
        simp only
        split
        · exact h
        · exact matchLedgerOk_updatePlayerScore _ _ _ h

/-- Claim C8, confirmed (the score-entry append and threshold check live in
the spec-modelled updatePlayerScore; its callers in the dump route every
gameplay point change through it): every operation of the embedded system
preserves the audit-trail invariant — after each operation the sum of the
deltas in each player's score history equals that player's current score. -/
theorem c8_ledger_invariant :
    (∀ a mid aid, matchLedgerOk (createMatch a mid aid))
    ∧ (∀ m name fid, matchLedgerOk m → matchLedgerOk (joinRoute m name fid).1)
    ∧ (∀ m r m', startMatch m r = some m' → matchLedgerOk m → matchLedgerOk m')
    ∧ (∀ m r m', pauseMatch m r = some m' → matchLedgerOk m → matchLedgerOk m')
    ∧ (∀ m r m', resumeMatch m r = some m' → matchLedgerOk m → matchLedgerOk m')
    ∧ (∀ m r m', endMatch m r = some m' → matchLedgerOk m → matchLedgerOk m')
    ∧ (∀ m pid d, matchLedgerOk m → matchLedgerOk (updatePlayerScore m pid d))
    ∧ (∀ m inp, matchLedgerOk m → matchLedgerOk (handleShotAttempt m inp).1)
    ∧ (∀ m pid, matchLedgerOk m → matchLedgerOk (removePlayer m pid).1) := by
  refine ⟨?_, ?_, ?_, ?_, ?_, ?_, ?_, ?_, ?_⟩
  · intro a mid aid p hp
    rcases List.mem_singleton.mp hp with rfl
    exact ledgerOk_newPlayer mid aid a .admin
  · intro m name fid h
    cases hf : findByName m name with
    | some q =>
      simp only [joinRoute, rejoinPlayer, hf, Option.map_some']
      exact h
    | none =>
      simp only [joinRoute, rejoinPlayer, hf, Option.map_none', addPlayer]
      split_ifs
      all_goals first
        | exact h
        | (intro p hp
           rcases List.mem_append.mp hp with hl | hr
           · exact h p hl
           · rcases List.mem_singleton.mp hr with rfl
             exact ledgerOk_newPlayer m.id fid name .player)
  · intro m r m' hs h
    simp only [startMatch] at hs
    split at hs
    · exact Option.noConfusion hs
    · split at hs
      · exact Option.noConfusion hs
      · split at hs
        · exact Option.noConfusion hs
        · rcases Option.some.inj hs with rfl
          intro p hp
          simp only at hp
          split at hp
          · rcases List.mem_map.mp hp with ⟨q, _, rfl⟩
            exact ledgerOk_resetPlayer q
          · exact h p hp
  · intro m r m' hs h
    simp only [pauseMatch] at hs
    split_ifs at hs <;> try exact Option.noConfusion hs
    rcases Option.some.inj hs with rfl
    exact h
  · intro m r m' hs h
    simp only [resumeMatch] at hs
    split_ifs at hs <;> try exact Option.noConfusion hs
    rcases Option.some.inj hs with rfl
    exact h
  · intro m r m' hs h
    simp only [endMatch] at hs
    split_ifs at hs <;> try exact Option.noConfusion hs
    rcases Option.some.inj hs with rfl
    exact h
  · intro m pid d h
    exact matchLedgerOk_updatePlayerScore m pid d h
  · intro m inp h
    simp only [handleShotAttempt]
    cases extractTargetId inp.qr with
    | some t => exact matchLedgerOk_broadcastResult m inp.shooterId t h
    | none => exact matchLedgerOk_classifyStep m inp h
  · intro m pid h
    simp only [removePlayer]
    split
    · intro p hp
      exact h p (List.mem_of_mem_filter hp)
    · exact h

/-- Claim C8 witness: the invariant holds on the active fixture and is
preserved when Bob's deposit score lands through updatePlayerScore. -/
theorem c8_witness :
    matchLedgerOk (updatePlayerScore sampleActive "b1" 25) :=
  c8_ledger_invariant.2.2.2.2.2.2.1 sampleActive "b1" 25
    (by simp only [matchLedgerOk, ledgerOk, histSum]; decide)

/-- Claim C6, confirmed (rejoinPlayer is spec-modelled; the rejoin decision
and the case-insensitive comparison are the join route's present code):
whenever the submitted name already belongs to a roster member compared
case-insensitively, join is an idempotent rejoin for every match state —
it returns that existing player's record and leaves the match unchanged,
neither creating a player nor failing. -/
theorem c6_rejoin_idempotent (m : Match) (name freshId : String) (p : Player)
    (h : findByName m name = some p) :
    joinRoute m name freshId = (m, some (p, true)) := by
  simp [joinRoute, rejoinPlayer, h]

/-- Claim C6 witness: rejoining as "BOB" in the active (started) fixture
returns Bob's existing record — id, score, inventory untouched — despite
the different capitalization and the non-waiting state. -/
theorem c6_witness :
    joinRoute sampleActive "BOB" "fresh9" = (sampleActive, some (bob, true)) :=
  c6_rejoin_idempotent sampleActive "BOB" "fresh9" bob (by decide)

/-- Claim C5, confirmed (the final startMatch with restart support is
spec-modelled; the dump's stale variant predates the restart behaviour its
own tests exercise): start succeeds exactly when the requester is the
admin, the roster has at least two players and the state is waiting or
ended; on success the state becomes active with ids, tokens and names
untouched; a start from ended first zeroes every player's score, shots,
inventory and history; a start from waiting changes no player record; a
violated precondition yields failure (the match value is untouched). -/
theorem c5_start_transition (m : Match) (r : String) :
    ((startMatch m r).isSome ↔
      (r = m.adminId ∧ 2 ≤ m.players.length
        ∧ (m.mstate = .waiting ∨ m.mstate = .ended)))
    ∧ (∀ m', startMatch m r = some m' →
        m'.mstate = .active
        ∧ m'.id = m.id ∧ m'.adminId = m.adminId
        ∧ m'.players.map Player.id = m.players.map Player.id
        ∧ m'.players.map Player.qrCode = m.players.map Player.qrCode
        ∧ m'.players.map Player.name = m.players.map Player.name)
    ∧ (m.mstate = .ended → ∀ m', startMatch m r = some m' →
        ∀ p ∈ m'.players,
          p.score = 0 ∧ p.shots = 0 ∧ p.inventory = [] ∧ p.scoreHistory = [])
    ∧ (m.mstate = .waiting → ∀ m', startMatch m r = some m' →
        m'.players = m.players) := by
  refine ⟨?_, ?_, ?_, ?_⟩
  · constructor
    · intro hsome
      by_cases ha : r = m.adminId
      · by_cases hc : m.mstate = .waiting ∨ m.mstate = .ended
        · by_cases hb : 2 ≤ m.players.length
          · exact ⟨ha, hb, hc⟩
          · exact absurd hsome (by simp [startMatch, ha, hc, not_le.mp hb])
        · exact absurd hsome (by simp [startMatch, ha, hc])
      · exact absurd hsome (by simp [startMatch, ha])
    · rintro ⟨ha, hb, hc⟩
      simp [startMatch, ha, hc, not_lt.mpr hb]
  · intro m' hs
    obtain ⟨hid, hadm, -, hst, hpl⟩ := startMatch_some_elim hs
    refine ⟨hst, hid, hadm, ?_, ?_, ?_⟩ <;>
      rcases hpl with ⟨-, hp⟩ | ⟨-, hp⟩ <;>
        simp [hp, List.map_map, Function.comp, resetPlayer]
  · intro hend m' hs
    obtain ⟨-, -, -, -, hpl⟩ := startMatch_some_elim hs
    rcases hpl with ⟨-, hp⟩ | ⟨hne, -⟩
    · intro p hp'
      rw [hp] at hp'
      rcases List.mem_map.mp hp' with ⟨q, -, rfl⟩
      simp [resetPlayer]
    · exact absurd hend hne
  · intro hw m' hs
    obtain ⟨-, -, -, -, hpl⟩ := startMatch_some_elim hs
    rcases hpl with ⟨hend, -⟩ | ⟨-, hp⟩
    · rw [hw] at hend
      cases hend
    · exact hp

/-- Claim C5 witness: restarting the ended scored fixture as the admin
succeeds, activates the match, keeps ids and tokens, and zeroes Bob's
score, shots, inventory and history. -/
theorem c5_witness :
    (startMatch sampleEndedScored "a1").isSome
    ∧ (∀ m', startMatch sampleEndedScored "a1" = some m' →
        m'.mstate = .active
        ∧ m'.players.map Player.id = sampleEndedScored.players.map Player.id
        ∧ ∀ p ∈ m'.players, p.score = 0 ∧ p.scoreHistory = []) := by
  have h := c5_start_transition sampleEndedScored "a1"
  refine ⟨h.1.mpr ⟨rfl, by decide, Or.inr rfl⟩, ?_⟩
  intro m' hm'
  refine ⟨(h.2.1 m' hm').1, (h.2.1 m' hm').2.2.2.1, ?_⟩
  intro p hp
  have hr := h.2.2.1 rfl m' hm' p hp
  exact ⟨hr.1, hr.2.2.2⟩

/-- Claim C10, counterexample: immediately after createMatch the admin is
in the roster as required, yet removePlayer applied to the admin id
succeeds and leaves a match whose adminId references nobody — player
removal does not preserve the admin-membership invariant. -/
theorem c10_counterexample :
    adminPresent (createMatch "Alice" "m1" "a1")
    ∧ (removePlayer (createMatch "Alice" "m1" "a1") "a1").2 = true
    ∧ ¬ adminPresent (removePlayer (createMatch "Alice" "m1" "a1") "a1").1 := by
  refine ⟨by simp only [adminPresent]; decide, by decide,
    by simp only [adminPresent]; decide⟩

/-- Claim C10, amended: createMatch establishes the admin-membership
invariant, join and the lifecycle transitions (start, pause, resume, end)
preserve it, and removing a non-admin player preserves it; but removePlayer
does not protect the admin — removing the adminId player always leaves a
match in which adminId references no roster member. -/
theorem c10_admin_membership :
    (∀ a mid aid, adminPresent (createMatch a mid aid))
    ∧ (∀ m name fid, adminPresent m → adminPresent (joinRoute m name fid).1)
    ∧ (∀ m r m', startMatch m r = some m' → adminPresent m → adminPresent m')
    ∧ (∀ m r m', pauseMatch m r = some m' → adminPresent m → adminPresent m')
    ∧ (∀ m r m', resumeMatch m r = some m' → adminPresent m → adminPresent m')
    ∧ (∀ m r m', endMatch m r = some m' → adminPresent m → adminPresent m')
    ∧ (∀ m pid, pid ≠ m.adminId → adminPresent m →
        adminPresent (removePlayer m pid).1)
    ∧ (∀ m, ¬ adminPresent (removePlayer m m.adminId).1) := by
  refine ⟨?_, ?_, ?_, ?_, ?_, ?_, ?_, ?_⟩
  · intro a mid aid
    exact ⟨newPlayer mid aid a .admin, List.mem_singleton.mpr rfl, rfl⟩
  · intro m name fid h
    cases hf : findByName m name with
    | some q =>
      simp only [joinRoute, rejoinPlayer, hf, Option.map_some']
      exact h
    | none =>
      simp only [joinRoute, rejoinPlayer, hf, Option.map_none', addPlayer]
      split_ifs
      all_goals first
        | exact h
        | (rcases h with ⟨p, hp, hid⟩
           exact ⟨p, List.mem_append_left _ hp, hid⟩)
  · intro m r m' hs h
    obtain ⟨-, hadm, -, -, hpl⟩ := startMatch_some_elim hs
    rcases h with ⟨p, hp, hid⟩
    rcases hpl with ⟨-, he⟩ | ⟨-, he⟩
    · exact ⟨resetPlayer p, by rw [he]; exact List.mem_map.mpr ⟨p, hp, rfl⟩,
        by rw [hadm]; exact hid⟩
    · exact ⟨p, by rw [he]; exact hp, by rw [hadm]; exact hid⟩
  · intro m r m' hs h
    simp only [pauseMatch] at hs
    split_ifs at hs <;> try exact Option.noConfusion hs
    rcases Option.some.inj hs with rfl
    exact h
  · intro m r m' hs h
    simp only [resumeMatch] at hs
    split_ifs at hs <;> try exact Option.noConfusion hs
    rcases Option.some.inj hs with rfl
    exact h
  · intro m r m' hs h
    simp only [endMatch] at hs
    split_ifs at hs <;> try exact Option.noConfusion hs
    rcases Option.some.inj hs with rfl
    exact h
  · intro m pid hne h
    rcases h with ⟨p, hp, hid⟩
    simp only [removePlayer]
    split
    · refine ⟨p, List.mem_filter.mpr ⟨hp, ?_⟩, hid⟩
      simp only [hid, decide_eq_true_eq]
      exact fun hh => hne hh.symm
    · exact ⟨p, hp, hid⟩
  · intro m
    simp only [removePlayer]
    split
    · rintro ⟨p, hp, hid⟩
      have := (List.mem_filter.mp hp).2
      simp [hid] at this
    · next hany =>
      rintro ⟨p, hp, hid⟩
      exact hany (List.any_eq_true.mpr ⟨p, hp, by simp [hid]⟩)

/-- Claim C10 witness: the creation and join conjuncts applied to a fresh
two-player match. -/
theorem c10_witness :
    adminPresent (createMatch "Ann" "m9" "a9")
    ∧ adminPresent (joinRoute (createMatch "Ann" "m9" "a9") "Ben" "b9").1 :=
  ⟨c10_admin_membership.1 "Ann" "m9" "a9",
   c10_admin_membership.2.1 (createMatch "Ann" "m9" "a9") "Ben" "b9"
     (c10_admin_membership.1 "Ann" "m9" "a9")⟩

/-- Claim C9 witness: the selection's independence from completion stamps
and the QR-format preference applied at concrete inputs. -/
theorem c9_witness :
    scanQRFromBase64 [⟨some "A", 99⟩, ⟨none, 0⟩]
      = scanQRFromBase64 [⟨some "A", 5⟩, ⟨none, 1⟩]
    ∧ pickBarcode [⟨"x", "Code128"⟩, ⟨"y", "QRCode"⟩] = some "y" := by
  constructor
  · exact c9_variant_order_selection.2.1 [⟨some "A", 5⟩, ⟨none, 1⟩]
      (fun r => if r.finishTime = 5 then 99 else 0)
  · exact c9_variant_order_selection.2.2.2.1
      [⟨"x", "Code128"⟩, ⟨"y", "QRCode"⟩] ⟨"y", "QRCode"⟩ (by decide)

end Game
